import Mathlib

/-!
Verification of the transcript-parsing pipeline and the resilient LLM-call
wrapper of the AI meeting summarizer.

The Python sources `utils/transcript_parser.py` and
`utils/gemini_meeting_api.py` are shallowly embedded below.  Python strings
are Lean `String`s (lists of characters); Python file objects are the string
of their contents; regular-expression operations of the two fixed patterns
used by the source are unfolded into explicit character-list recursions.
The character classes of Python regular expressions (`\w`, `\s`, `\d`) and
`str.lower` are modelled on their ASCII fragment.

External library calls have no source in this repository and are modelled
from the specification where they matter:
 * `BeautifulSoup(text, "html.parser").get_text()` is modelled as a
   tag-span stripper (spec: strip HTML markup, keeping only visible text);
 * `nltk.word_tokenize` is modelled as whitespace tokenization (it is only
   ever applied to text whose punctuation was already removed);
 * `WordNetLemmatizer.lemmatize` consults an external lexicon and is
   modelled as the identity map (every token treated as already in base
   form);
 * the Gemini completion endpoint is modelled as an oracle giving, for each
   attempt number, either a response text, a rate-limit (429 /
   ResourceExhausted) exception, or another exception; `time.sleep` is
   modelled by recording the slept duration in a trace.
-/

/-- Python whitespace for `str.strip` and the regex classes `\s` / `\S`
(ASCII fragment: space, tab, newline, carriage return, vertical tab,
form feed). -/
def pyIsSpace (c : Char) : Bool :=
  c = ' ' || c = '\t' || c = '\n' || c = '\r' || c = '\x0b' || c = '\x0c'

/-- Python regex class `\w` (ASCII fragment: letters, digits, underscore). -/
def isWordChar (c : Char) : Bool :=
  c.isAlphanum || c = '_'

/-- Python `str.strip()` on a character list: drop whitespace from both
ends. -/
def stripList (l : List Char) : List Char :=
  (((l.dropWhile pyIsSpace).reverse.dropWhile pyIsSpace)).reverse

/-- Python `str.strip()`. -/
def pyStrip (s : String) : String :=
  ⟨stripList s.data⟩

/-- Python `str.lower()` (ASCII fragment, as in `Char.toLower`). -/
def pyLower (s : String) : String :=
  ⟨s.data.map Char.toLower⟩

/-- Split a list at every element satisfying `p`, removing the separators
and keeping empty chunks; the semantics of Python `str.split(sep)` at the
character level. -/
def listSplitOnP (p : α → Bool) : List α → List (List α)
  | [] => [[]]
  | a :: l =>
    if p a then [] :: listSplitOnP p l
    else
      match listSplitOnP p l with
      | b :: bs => (a :: b) :: bs
      | [] => [[a]]

/-- Python `content.split(chr(10))`: the lines of a string, keeping empty
pieces. -/
def pyLines (s : String) : List String :=
  (listSplitOnP (fun c => c = '\n') s.data).map String.mk

/-- Length consumed by a match of the regex alternative `http\S+` at the
head of the list (`0` when there is no match there): the literal `http`
followed by one or more non-whitespace characters, greedily. -/
def urlMatchLen : List Char → Nat
  | 'h' :: 't' :: 't' :: 'p' :: c :: rest =>
    if pyIsSpace c then 0
    else 5 + (rest.takeWhile (fun x => !pyIsSpace x)).length
  | _ => 0

/-- Length consumed by a match of the regex alternative `www.\S+` at the
head of the list (`0` when there is no match there): the literal `www`,
then any character other than newline (the unescaped dot), then one or
more non-whitespace characters, greedily. -/
def wwwMatchLen : List Char → Nat
  | 'w' :: 'w' :: 'w' :: c :: d :: rest =>
    if c = '\n' || pyIsSpace d then 0
    else 5 + (rest.takeWhile (fun x => !pyIsSpace x)).length
  | _ => 0

/-- Embedding of `re.sub(r'http\S+|www.\S+', '', text)`: scan left to
right, at each position try the first alternative then the second, remove
the (greedy) match and continue after it.  Structural recursion on a fuel
counter; every step consumes at least one character, so fuel equal to the
length of the list makes the fuel-exhausted branch unreachable. -/
def removeUrlsGo : Nat → List Char → List Char
  | _, [] => []
  | 0, l => l
  | fuel + 1, c :: rest =>
    let n := urlMatchLen (c :: rest)
    if n ≠ 0 then removeUrlsGo fuel ((c :: rest).drop n)
    else
      let m := wwwMatchLen (c :: rest)
      if m ≠ 0 then removeUrlsGo fuel ((c :: rest).drop m)
      else c :: removeUrlsGo fuel rest

/-- Source `remove_urls`: removes URLs from a string. -/
def remove_urls (text : String) : String :=
  ⟨removeUrlsGo text.data.length text.data⟩

/-- Modelled from the spec: `remove_html_tags` calls the external
BeautifulSoup html parser (`BeautifulSoup(text, "html.parser").get_text()`,
no source in this repository); per the spec it strips HTML markup keeping
only visible text, modelled as removing every span from an opening angle
bracket through the next closing one.  Fuel as in `removeUrlsGo`. -/
def soupGetTextGo : Nat → List Char → List Char
  | _, [] => []
  | 0, l => l
  | fuel + 1, c :: rest =>
    if c = '<' then soupGetTextGo fuel ((rest.dropWhile (fun x => x ≠ '>')).drop 1)
    else c :: soupGetTextGo fuel rest

/-- Source `remove_html_tags` (via the BeautifulSoup model above). -/
def remove_html_tags (text : String) : String :=
  ⟨soupGetTextGo text.data.length text.data⟩

/-- Source `remove_punctuation`: `re.sub` with the pattern matching every
character that is neither a word character nor whitespace, replaced by
nothing. -/
def remove_punctuation (text : String) : String :=
  ⟨text.data.filter (fun c => isWordChar c || pyIsSpace c)⟩

/-- Modelled from the spec: `nltk.word_tokenize` (external library, no
source in this repository) splits text into word tokens; on its only use
site the text has already had all punctuation removed, where tokenization
is whitespace splitting. -/
def word_tokenize (text : String) : List String :=
  ((listSplitOnP pyIsSpace text.data).map String.mk).filter (fun t => t ≠ "")

/-- Modelled from the spec: `WordNetLemmatizer.lemmatize` maps a token to
its dictionary base form; the lexicon is external data, modelled as the
identity map (every token treated as already in base form). -/
def lemmatize (w : String) : String := w

/-- Source `tokenize_and_lemmatize`: tokenizes text, lemmatizes each
token, rejoins with single spaces. -/
def tokenize_and_lemmatize (text : String) : String :=
  String.intercalate " " ((word_tokenize text).map lemmatize)

/-- A Python value passed where a string is expected: either an actual
string or some non-string value (carried only as an opaque description,
since `preprocess_text` never inspects it). -/
inductive PyVal where
  | str (s : String)
  | nonString (descr : String)
deriving DecidableEq

/-- Source `preprocess_text`: the isinstance guard, then lower-casing, URL
removal, HTML removal, punctuation removal, optional
tokenization+lemmatization, and a final strip. -/
def preprocess_text (text : PyVal) (apply_lemmatization : Bool) : String :=
  match text with
  | .nonString _ => ""
  | .str s =>
    let t1 := pyLower s
    let t2 := remove_urls t1
    let t3 := remove_html_tags t2
    let t4 := remove_punctuation t3
    let t5 := if apply_lemmatization then tokenize_and_lemmatize t4 else t4
    pyStrip t5

/-- Source `parse_txt_transcript`: each line of the file is stripped,
preprocessed, and kept when the result is non-empty, in source order. -/
def parse_txt_transcript (content : String) (apply_lemmatization : Bool) : List String :=
  ((pyLines content).map
    (fun line => preprocess_text (.str (pyStrip line)) apply_lemmatization)).filter
    (fun u => u ≠ "")

/-- Python `re.fullmatch(r'\d+', line)`: a non-empty all-digit line. -/
def isIndexLine (l : String) : Bool :=
  l ≠ "" && l.data.all Char.isDigit

/-- Shape of one `HH:MM:SS,mmm` time field of the SRT timestamp pattern,
as a list of character predicates. -/
def timeFieldShape : List (Char → Bool) :=
  [Char.isDigit, Char.isDigit, fun c => c = ':',
   Char.isDigit, Char.isDigit, fun c => c = ':',
   Char.isDigit, Char.isDigit, fun c => c = ',',
   Char.isDigit, Char.isDigit, Char.isDigit]

/-- Shape of the full SRT timestamp-range pattern
`\d\dd:\d\d:\d\d,\d\d\d --> \d\d:\d\d:\d\d,\d\d\d` (the arrow spelled as
space, dash, dash, greater-than, space). -/
def timestampShape : List (Char → Bool) :=
  timeFieldShape ++
    ([fun c => c = ' ', fun c => c = '-', fun c => c = '-',
      fun c => c = '>', fun c => c = ' '] : List (Char → Bool)) ++ timeFieldShape

/-- Python `re.fullmatch` of the SRT timestamp-range pattern: the line has
exactly the pattern's length and every character satisfies the
corresponding shape predicate. -/
def isTimestampLine (l : String) : Bool :=
  l.data.length = timestampShape.length &&
    (l.data.zip timestampShape).all (fun cp => cp.2 cp.1)

/-- Flush of one accumulated SRT block: join the retained lines with
single spaces, preprocess, and keep the result when non-empty. -/
def flushSrtBlock (apply_lemmatization : Bool) (cur : List String) : List String :=
  match cur with
  | [] => []
  | _ =>
    let cleaned := preprocess_text (.str (String.intercalate " " cur)) apply_lemmatization
    if cleaned = "" then [] else [cleaned]

/-- Loop body of `parse_srt_transcript`: iterate over the lines carrying
the retained lines of the current block; a blank line flushes the block;
pure-digit index lines and exact-pattern timestamp lines are skipped;
other lines are appended to the block; a final non-empty block is flushed
at the end. -/
def srtProcess (apply_lemmatization : Bool) : List String → List String → List String
  | [], cur => flushSrtBlock apply_lemmatization cur
  | l :: rest, cur =>
    let line := pyStrip l
    if line = "" then
      flushSrtBlock apply_lemmatization cur ++ srtProcess apply_lemmatization rest []
    else if isIndexLine line then srtProcess apply_lemmatization rest cur
    else if isTimestampLine line then srtProcess apply_lemmatization rest cur
    else srtProcess apply_lemmatization rest (cur ++ [line])

/-- Source `parse_srt_transcript`: split the content into lines and run
the block loop with an empty current block. -/
def parse_srt_transcript (content : String) (apply_lemmatization : Bool) : List String :=
  srtProcess apply_lemmatization (pyLines content) []

/-- Source `parse_transcript_data`: dispatch on the file type tag; the
raised `ValueError` is embedded as the error branch of `Except`, carrying
the message string. -/
def parse_transcript_data (content : String) (file_type : String)
    (apply_lemmatization : Bool) : Except String (List String) :=
  if file_type = "txt" then .ok (parse_txt_transcript content apply_lemmatization)
  else if file_type = "srt" then .ok (parse_srt_transcript content apply_lemmatization)
  else .error ("Unsupported transcript file type: " ++ file_type ++
    ". Only TXT and SRT are supported.")

/-- Retention test of the SRT loop on a (stripped) line: neither a
pure-digit index line nor an exact-pattern timestamp line. -/
def keepSrtLine (l : String) : Bool :=
  !(isIndexLine l) && !(isTimestampLine l)

/-- Reformulation of SRT parsing following the specification text, for the
refinement comparison with the source-derived `parse_srt_transcript`: the
per-block treatment (discard index and timestamp lines, join the rest with
single spaces, normalize, keep non-empty results in block order). -/
def srt_spec_blocks (apply_lemmatization : Bool) (blocks : List (List String)) : List String :=
  blocks.filterMap (fun block =>
    let kept := block.filter keepSrtLine
    let cleaned := preprocess_text (.str (String.intercalate " " kept)) apply_lemmatization
    if cleaned = "" then none else some cleaned)

/-- Reformulation of SRT parsing following the specification text: the
input is a sequence of lines representing blocks separated by blank
lines; each block is handled by `srt_spec_blocks`. -/
def srt_spec (content : String) (apply_lemmatization : Bool) : List String :=
  srt_spec_blocks apply_lemmatization
    (listSplitOnP (fun l => l == "") ((pyLines content).map pyStrip))

/-- Outcome of one call to the external completion service (modelled from
the spec: the service either returns a response exposing its generated
text, possibly empty or blocked, or raises a rate-limit/quota error
(`ResourceExhausted`, the 429 signal), or raises some other exception).
The carried strings are the response text resp. the display text of the
exception. -/
inductive GenResult where
  | success (text : String)
  | rateLimit (err : String)
  | otherError (err : String)
deriving DecidableEq

/-- Observable outcome of `make_gemini_call_with_retry`: the returned
string, the trace of `time.sleep` durations in order, and the number of
calls made to the completion service. -/
structure CallTrace where
  result : String
  sleeps : List ℚ
  calls : ℕ
deriving DecidableEq

/-- Loop of `make_gemini_call_with_retry`.  The service is an oracle from
the call number (equal to `retries` at each iteration, since every
completed non-returning iteration was a rate-limited one) to that call's
outcome.  The `while retries < max_retries` loop is embedded structurally
with fuel `max_retries - retries`; the fuel-exhausted base case is the
fall-through return after the loop. -/
def retryLoop (service : ℕ → GenResult) (max_retries : ℤ) :
    ℕ → ℕ → ℚ → CallTrace
  | 0, _, _ =>
    ⟨"Failed to get response after multiple retries (unknown reason).", [], 0⟩
  | fuel + 1, retries, delay =>
    match service retries with
    | .success t =>
      if t ≠ "" then ⟨pyStrip t, [], 1⟩
      else ⟨"AI response was empty or blocked, possibly due to safety settings.", [], 1⟩
    | .rateLimit e =>
      if ((retries + 1 : ℕ) : ℤ) < max_retries then
        let rest := retryLoop service max_retries fuel (retries + 1) (delay * 2)
        ⟨rest.result, delay :: rest.sleeps, rest.calls + 1⟩
      else
        ⟨"Failed to get response after " ++ toString max_retries ++
          " retries due to quota/rate limit: " ++ e, [], 1⟩
    | .otherError e => ⟨"An unexpected API error occurred: " ++ e, [], 1⟩

/-- Source `make_gemini_call_with_retry`: starts the loop with
`retries = 0` and `delay = initial_delay`.  Delays are exact rationals
(`float` doubling of these small values is exact).  `max_retries` is a
Python integer, possibly non-positive. -/
def make_gemini_call_with_retry (service : ℕ → GenResult) (max_retries : ℤ)
    (initial_delay : ℚ) : CallTrace :=
  retryLoop service max_retries max_retries.toNat 0 initial_delay

/-- Python `raw_response.split("- ")` at the character level: split on
every non-overlapping occurrence of dash-space, scanning left to right,
keeping empty pieces. -/
def splitDashAux : List Char → List (List Char)
  | '-' :: ' ' :: rest => [] :: splitDashAux rest
  | c :: rest =>
    match splitDashAux rest with
    | b :: bs => (c :: b) :: bs
    | [] => [[c]]
  | [] => [[]]

/-- Python `raw_response.split("- ")`. -/
def pySplitDash (s : String) : List String :=
  (splitDashAux s.data).map String.mk

/-- Python substring containment (`sub in s`) on character lists. -/
def listContainsSub : List Char → List Char → Bool
  | [], sub => sub.isEmpty
  | l@(_ :: t), sub => sub.isPrefixOf l || listContainsSub t sub

/-- Python substring containment (`sub in s`). -/
def strContains (s sub : String) : Bool :=
  listContainsSub s.data sub.data

/-- Prompt template of `extract_action_items`. -/
def action_items_prompt (full_transcript_text : String) : String :=
  "\n    From the following meeting transcript, identify all action items, tasks, or follow-up activities.\n" ++
  "    For each action item, state what needs to be done, who is responsible (if mentioned), and any deadlines (if mentioned).\n" ++
  "    List each action item on a new line, starting with a dash \"- \". If no action items are present, state \"No action items identified.\"\n\n" ++
  "    Meeting Transcript:\n    " ++ full_transcript_text ++ "\n\n    Action Items:\n    "

/-- Prompt template of `highlight_key_decisions`. -/
def key_decisions_prompt (full_transcript_text : String) : String :=
  "\n    Review the following meeting transcript and identify all significant decisions that were made.\n" ++
  "    List each key decision on a new line, starting with a dash \"- \". If no decisions are present, state \"No key decisions identified.\"\n\n" ++
  "    Meeting Transcript:\n    " ++ full_transcript_text ++ "\n\n    Key Decisions:\n    "

/-- Source `extract_action_items`: builds the prompt, obtains the raw
model response through the completion client (abstracted as the function
`complete`, the composite of `make_gemini_call_with_retry` with the
external model), and parses the bulleted list. -/
def extract_action_items (complete : String → String)
    (full_transcript_text : String) : List String :=
  let raw_response := complete (action_items_prompt full_transcript_text)
  if strContains raw_response "No action items identified" then []
  else ((pySplitDash raw_response).map pyStrip).filter (fun item => item ≠ "")

/-- Source `highlight_key_decisions`: same shape as
`extract_action_items` with the decisions prompt and marker. -/
def highlight_key_decisions (complete : String → String)
    (full_transcript_text : String) : List String :=
  let raw_response := complete (key_decisions_prompt full_transcript_text)
  if strContains raw_response "No key decisions identified" then []
  else ((pySplitDash raw_response).map pyStrip).filter (fun item => item ≠ "")

/-- Helper for relating the SRT loop accumulator to the block
decomposition: prepend the already-accumulated lines to the first block. -/
def consHead (cur : List String) : List (List String) → List (List String)
  | [] => [cur]
  | b :: bs => (cur ++ b) :: bs

theorem dropWhile_head_false {p : Char → Bool} :
    ∀ {l : List Char} {a : Char} {as : List Char},
      List.dropWhile p l = a :: as → p a = false := by
  intro l
  induction l with
  | nil => intro a as h; simp at h
  | cons b bl ih =>
    intro a as h
    by_cases hb : p b
    · rw [List.dropWhile_cons_of_pos hb] at h
      exact ih h
    · rw [List.dropWhile_cons_of_neg hb] at h
      cases h
      simpa using hb

theorem dropWhile_eq_self_of_head {p : Char → Bool} {l : List Char}
    (h : ∀ a as, l = a :: as → p a = false) : l.dropWhile p = l := by
  cases l with
  | nil => rfl
  | cons a as => exact List.dropWhile_cons_of_neg (by simp [h a as rfl])

theorem dropWhile_idem {p : Char → Bool} (l : List Char) :
    (l.dropWhile p).dropWhile p = l.dropWhile p :=
  dropWhile_eq_self_of_head (fun a as h => dropWhile_head_false h)

theorem stripList_idem (l : List Char) : stripList (stripList l) = stripList l := by
  unfold stripList
  have h1 : ((l.dropWhile pyIsSpace).reverse.dropWhile pyIsSpace).reverse.dropWhile pyIsSpace
      = ((l.dropWhile pyIsSpace).reverse.dropWhile pyIsSpace).reverse := by
    apply dropWhile_eq_self_of_head
    intro a as h
    have hpre : ((l.dropWhile pyIsSpace).reverse.dropWhile pyIsSpace).reverse
        <+: l.dropWhile pyIsSpace := by
      have hp := List.reverse_prefix.mpr
        (@List.dropWhile_suffix Char (l.dropWhile pyIsSpace).reverse pyIsSpace)
      rwa [List.reverse_reverse] at hp
    obtain ⟨tl, htl⟩ := hpre
    rw [h] at htl
    exact dropWhile_head_false htl.symm
  rw [h1]
  simp [dropWhile_idem]

theorem mem_stripList {l : List Char} {a : Char} (h : a ∈ stripList l) : a ∈ l := by
  unfold stripList at h
  simp only [List.mem_reverse] at h
  have h2 := (List.dropWhile_suffix pyIsSpace).subset h
  simp only [List.mem_reverse] at h2
  exact (List.dropWhile_suffix pyIsSpace).subset h2

theorem mem_removeUrlsGo :
    ∀ (fuel : ℕ) {l : List Char} {a : Char}, a ∈ removeUrlsGo fuel l → a ∈ l := by
  intro fuel
  induction fuel with
  | zero =>
    intro l a h
    cases l with
    | nil => simpa [removeUrlsGo] using h
    | cons c rest => simpa [removeUrlsGo] using h
  | succ fuel ih =>
    intro l a h
    cases l with
    | nil => simpa [removeUrlsGo] using h
    | cons c rest =>
      rw [removeUrlsGo] at h
      by_cases hn : urlMatchLen (c :: rest) ≠ 0
      · rw [if_pos hn] at h
        exact List.drop_subset _ _ (ih h)
      · rw [if_neg hn] at h
        by_cases hm : wwwMatchLen (c :: rest) ≠ 0
        · rw [if_pos hm] at h
          exact List.drop_subset _ _ (ih h)
        · rw [if_neg hm] at h
          rcases List.mem_cons.mp h with h1 | h1
          · exact h1 ▸ List.mem_cons_self c rest
          · exact List.mem_cons_of_mem c (ih h1)

theorem mem_soupGetTextGo :
    ∀ (fuel : ℕ) {l : List Char} {a : Char}, a ∈ soupGetTextGo fuel l → a ∈ l := by
  intro fuel
  induction fuel with
  | zero =>
    intro l a h
    cases l with
    | nil => simpa [soupGetTextGo] using h
    | cons c rest => simpa [soupGetTextGo] using h
  | succ fuel ih =>
    intro l a h
    cases l with
    | nil => simpa [soupGetTextGo] using h
    | cons c rest =>
      rw [soupGetTextGo] at h
      by_cases hc : c = '<'
      · rw [if_pos hc] at h
        have := ih h
        have h2 := (List.dropWhile_suffix (fun x => x ≠ '>')).subset (List.drop_subset 1 _ this)
        exact List.mem_cons_of_mem c h2
      · rw [if_neg hc] at h
        rcases List.mem_cons.mp h with h1 | h1
        · exact h1 ▸ List.mem_cons_self c rest
        · exact List.mem_cons_of_mem c (ih h1)

theorem soupGetTextGo_eq_self :
    ∀ (fuel : ℕ) {l : List Char}, (∀ c ∈ l, c ≠ '<') → soupGetTextGo fuel l = l := by
  intro fuel
  induction fuel with
  | zero =>
    intro l h
    cases l with
    | nil => rfl
    | cons c rest => rfl
  | succ fuel ih =>
    intro l h
    cases l with
    | nil => rfl
    | cons c rest =>
      rw [soupGetTextGo, if_neg (h c (List.mem_cons_self c rest))]
      rw [ih (fun x hx => h x (List.mem_cons_of_mem c hx))]

theorem char_toLower_idem (c : Char) : c.toLower.toLower = c.toLower := by
  unfold Char.toLower
  by_cases h : c.toNat ≥ 65 ∧ c.toNat ≤ 90
  · rw [if_pos h]
    have hv : (c.toNat + 32).isValidChar := Or.inl (by omega)
    have h1 : (Char.ofNat (c.toNat + 32)).toNat = c.toNat + 32 := by
      unfold Char.ofNat
      rw [dif_pos hv]
      rfl
    rw [if_neg (by rw [h1]; omega)]
  · rw [if_neg h, if_neg h]

theorem map_toLower_eq_self {l : List Char}
    (h : ∀ a ∈ l, a.toLower = a) : l.map Char.toLower = l := by
  induction l with
  | nil => rfl
  | cons a tl ih =>
    simp only [List.map_cons, h a (List.mem_cons_self a tl)]
    rw [ih (fun x hx => h x (List.mem_cons_of_mem a hx))]

/-- C1 counterexample: the dispatcher rejects the tag "TXT" with the
UnsupportedFormat error, although its case-insensitive form is the
supported tag "txt"; the claimed case-insensitive dispatch fails on the
code. -/
theorem c1_dispatcher_counterexample :
    parse_transcript_data "Hello world.\n" "TXT" false =
      .error "Unsupported transcript file type: TXT. Only TXT and SRT are supported." := rfl

/-- C1 amended: the dispatcher matches the file-type tag exactly: the
lowercase tags "txt" and "srt" dispatch to the respective parsers, and
every other tag (uppercase variants such as "TXT" included) fails with the
UnsupportedFormat error whose message carries the offending type string. -/
theorem c1_dispatcher_amended :
    (∀ content f, parse_transcript_data content "txt" f =
        .ok (parse_txt_transcript content f)) ∧
    (∀ content f, parse_transcript_data content "srt" f =
        .ok (parse_srt_transcript content f)) ∧
    (∀ content f ft, ft ≠ "txt" → ft ≠ "srt" →
        parse_transcript_data content ft f =
          .error ("Unsupported transcript file type: " ++ ft ++
            ". Only TXT and SRT are supported.")) := by
  refine ⟨fun content f => rfl, fun content f => ?_, fun content f ft h1 h2 => ?_⟩
  · simp [parse_transcript_data]
  · simp [parse_transcript_data, h1, h2]

/-- C1 witness: the amended dispatcher theorem applied to the unsupported
tag "csv". -/
theorem c1_dispatcher_amended_witness :
    ("csv" ≠ "txt" ∧ "csv" ≠ "srt") ∧
    parse_transcript_data "Hello world.\n" "csv" false =
      .error "Unsupported transcript file type: csv. Only TXT and SRT are supported." :=
  ⟨⟨by decide, by decide⟩,
    c1_dispatcher_amended.2.2 "Hello world.\n" false "csv" (by decide) (by decide)⟩

/-- C3: when the service rate-limits the first two calls and the third
call succeeds with a non-empty response, the client returns that response
stripped, after exactly two backoff sleeps of 1.0 and then 2.0 time units,
having made three service calls (defaults max_retries = 7,
initial_delay = 1.0). -/
theorem c3_retry_backoff_then_success (t e0 e1 : String) (h : t ≠ "") :
    make_gemini_call_with_retry
      (fun n => if n = 0 then .rateLimit e0 else if n = 1 then .rateLimit e1 else .success t)
      7 1 = ⟨pyStrip t, [1, 2], 3⟩ := by
  simp [make_gemini_call_with_retry, retryLoop, h]

/-- C3 witness: the backoff theorem applied at the concrete response
text "ok". -/
theorem c3_retry_backoff_then_success_witness :
    "ok" ≠ "" ∧
    make_gemini_call_with_retry
      (fun n => if n = 0 then .rateLimit "q0" else if n = 1 then .rateLimit "q1" else .success "ok")
      7 1 = ⟨"ok", [1, 2], 3⟩ :=
  ⟨by decide, c3_retry_backoff_then_success "ok" "q0" "q1" (by decide)⟩

/-- C4: when the service rate-limits every call, the client makes exactly
max_retries = 7 attempts, sleeps six times with doubling delays, and
returns (instead of raising) the failure string embedding the last
error. -/
theorem c4_retry_exhaustion (e : ℕ → String) :
    make_gemini_call_with_retry (fun n => .rateLimit (e n)) 7 1 =
      ⟨"Failed to get response after 7 retries due to quota/rate limit: " ++ e 6,
        [1, 2, 4, 8, 16, 32], 7⟩ := by
  simp [make_gemini_call_with_retry, retryLoop]
  exact ⟨rfl, by norm_num⟩

/-- C8: when the first service call raises a non-rate-limit exception, the
client returns the descriptive error string immediately: one service call,
no sleeps, no retries, for every positive max_retries and every
initial_delay. -/
theorem c8_other_error_immediate (m : ℤ) (hm : 0 < m) (d : ℚ) (e : String)
    (g : ℕ → GenResult) :
    make_gemini_call_with_retry (fun n => if n = 0 then .otherError e else g n) m d =
      ⟨"An unexpected API error occurred: " ++ e, [], 1⟩ := by
  unfold make_gemini_call_with_retry
  have h : m.toNat = (m.toNat - 1) + 1 := by omega
  rw [h]
  rfl

/-- C8 witness: the immediate-error theorem applied at max_retries = 7,
initial_delay = 1, error text "boom". -/
theorem c8_other_error_immediate_witness :
    (0 : ℤ) < 7 ∧
    make_gemini_call_with_retry
      (fun n => if n = 0 then .otherError "boom" else .success "x") 7 1 =
      ⟨"An unexpected API error occurred: boom", [], 1⟩ :=
  ⟨by decide, c8_other_error_immediate 7 (by decide) 1 "boom" (fun _ => .success "x")⟩

/-- C10: with max_retries less than or equal to zero the loop body never
runs: no service call, no sleep, and the fixed unknown-reason failure
string is returned. -/
theorem c10_nonpositive_max_retries (m : ℤ) (hm : m ≤ 0)
    (service : ℕ → GenResult) (d : ℚ) :
    make_gemini_call_with_retry service m d =
      ⟨"Failed to get response after multiple retries (unknown reason).", [], 0⟩ := by
  unfold make_gemini_call_with_retry
  have h : m.toNat = 0 := by omega
  rw [h]
  rfl

/-- C10 witness: the non-positive max_retries theorem applied at
max_retries = -3. -/
theorem c10_nonpositive_max_retries_witness :
    (-3 : ℤ) ≤ 0 ∧
    make_gemini_call_with_retry (fun _ => .success "x") (-3) 1 =
      ⟨"Failed to get response after multiple retries (unknown reason).", [], 0⟩ :=
  ⟨by decide, c10_nonpositive_max_retries (-3) (by decide) (fun _ => .success "x") 1⟩

/-- C9: a non-string input to the normalizer yields the empty string (the
isinstance guard), for either value of the lemmatization flag; the
embedding is a total function, so no exception is possible. -/
theorem c9_non_string_input (descr : String) (f : Bool) :
    preprocess_text (.nonString descr) f = "" := rfl

/-- C5: the bulleted-list parsers return the empty list whenever the
response contains their negative-result marker phrase, and otherwise
split the response on dash-space, strip each fragment, drop empty
fragments and return the rest in order; in particular the two-bullet
response with no separation between the bullets parses into exactly two
stripped items. -/
theorem c5_bullet_list_parsing :
    (∀ r t, strContains r "No action items identified" = true →
        extract_action_items (fun _ => r) t = []) ∧
    (∀ r t, strContains r "No action items identified" = false →
        extract_action_items (fun _ => r) t =
          ((pySplitDash r).map pyStrip).filter (fun item => item ≠ "")) ∧
    extract_action_items
        (fun _ => "- Alice to send report by Friday- Bob to review deck") "" =
      ["Alice to send report by Friday", "Bob to review deck"] ∧
    extract_action_items (fun _ => "No action items identified.") "" = [] ∧
    (∀ r t, strContains r "No key decisions identified" = true →
        highlight_key_decisions (fun _ => r) t = []) ∧
    (∀ r t, strContains r "No key decisions identified" = false →
        highlight_key_decisions (fun _ => r) t =
          ((pySplitDash r).map pyStrip).filter (fun item => item ≠ "")) ∧
    highlight_key_decisions (fun _ => "No key decisions identified.") "" = [] := by
  refine ⟨fun r t h => ?_, fun r t h => ?_, by decide, by decide,
    fun r t h => ?_, fun r t h => ?_, by decide⟩
  · simp [extract_action_items, h]
  · simp [extract_action_items, h]
  · simp [highlight_key_decisions, h]
  · simp [highlight_key_decisions, h]

/-- C5 witness: the general splitting clause of the bulleted-list theorem
applied at a concrete marker-free response. -/
theorem c5_bullet_list_parsing_witness :
    strContains "- Do the thing" "No action items identified" = false ∧
    extract_action_items (fun _ => "- Do the thing") "" =
      ((pySplitDash "- Do the thing").map pyStrip).filter (fun item => item ≠ "") :=
  ⟨by decide, c5_bullet_list_parsing.2.1 "- Do the thing" "" (by decide)⟩

/-- C2 counterexample: the normalizer is not idempotent.  Removing the
punctuation of "w!ww.ab" yields "wwwab", and on a second pass the URL
pattern (whose dot is unescaped, so it matches any character after the
literal "www") deletes that entire word, giving the empty string. -/
theorem c2_normalizer_counterexample :
    preprocess_text (.str (preprocess_text (.str "w!ww.ab") false)) false ≠
      preprocess_text (.str "w!ww.ab") false := by decide

/-- C2 amended: with lemmatization disabled, the normalizer is idempotent
on exactly those inputs whose normalized form is itself free of
URL-pattern matches (fixed by URL removal); the unescaped dot of the URL
regex makes this restriction necessary, since normalization can assemble
new URL-shaped text out of punctuation-split fragments (see the
counterexample).  The lemmatization-enabled path depends on the external
WordNet lexicon and is outside the amended statement. -/
theorem c2_normalizer_amended_idempotent (s : String)
    (h : remove_urls (preprocess_text (.str s) false) = preprocess_text (.str s) false) :
    preprocess_text (.str (preprocess_text (.str s) false)) false =
      preprocess_text (.str s) false := by
  have hmem : ∀ c ∈ (preprocess_text (.str s) false).data, c ∈ (pyLower s).data := by
    intro c hc
    have h1 : c ∈ (remove_punctuation (remove_html_tags (remove_urls (pyLower s)))).data :=
      mem_stripList hc
    have h2 := (List.mem_filter.mp h1).1
    have h3 := mem_soupGetTextGo _ h2
    exact mem_removeUrlsGo _ h3
  have hp : ∀ c ∈ (preprocess_text (.str s) false).data,
      (isWordChar c || pyIsSpace c) = true := by
    intro c hc
    have h1 : c ∈ (remove_punctuation (remove_html_tags (remove_urls (pyLower s)))).data :=
      mem_stripList hc
    exact (List.mem_filter.mp h1).2
  have hlow : pyLower (preprocess_text (.str s) false) = preprocess_text (.str s) false := by
    show String.mk ((preprocess_text (.str s) false).data.map Char.toLower) = _
    rw [map_toLower_eq_self]
    intro a ha
    obtain ⟨b, _, hb⟩ := List.mem_map.mp (hmem a ha)
    rw [← hb]
    exact char_toLower_idem b
  have hsoup : remove_html_tags (preprocess_text (.str s) false) =
      preprocess_text (.str s) false := by
    show String.mk (soupGetTextGo _ (preprocess_text (.str s) false).data) = _
    rw [soupGetTextGo_eq_self]
    intro c hc hlt
    have := hp c hc
    rw [hlt] at this
    simp [isWordChar, pyIsSpace, Char.isAlphanum, Char.isAlpha, Char.isUpper,
      Char.isLower, Char.isDigit] at this
  have hpunct : remove_punctuation (preprocess_text (.str s) false) =
      preprocess_text (.str s) false := by
    show String.mk ((preprocess_text (.str s) false).data.filter
      (fun c => isWordChar c || pyIsSpace c)) = _
    rw [List.filter_eq_self.mpr hp]
  have hstrip : pyStrip (preprocess_text (.str s) false) = preprocess_text (.str s) false := by
    show String.mk (stripList (preprocess_text (.str s) false).data) = _
    show String.mk (stripList (stripList
      (remove_punctuation (remove_html_tags (remove_urls (pyLower s)))).data)) = _
    rw [stripList_idem]
    rfl
  show pyStrip (remove_punctuation (remove_html_tags (remove_urls
    (pyLower (preprocess_text (.str s) false))))) = preprocess_text (.str s) false
  rw [hlow, h, hsoup, hpunct, hstrip]

/-- C2 witness: the amended idempotence theorem applied at an input whose
normalized form has no URL-pattern match. -/
theorem c2_normalizer_amended_idempotent_witness :
    remove_urls (preprocess_text (.str "Hello world.") false) =
      preprocess_text (.str "Hello world.") false ∧
    preprocess_text (.str (preprocess_text (.str "Hello world.") false)) false =
      preprocess_text (.str "Hello world.") false :=
  ⟨by decide, c2_normalizer_amended_idempotent "Hello world." (by decide)⟩

theorem listSplitOnP_exists_cons (p : α → Bool) (l : List α) :
    ∃ b bs, listSplitOnP p l = b :: bs := by
  induction l with
  | nil => exact ⟨[], [], rfl⟩
  | cons a l ih =>
    by_cases h : p a
    · exact ⟨[], listSplitOnP p l, by simp [listSplitOnP, h]⟩
    · obtain ⟨b, bs, hbs⟩ := ih
      exact ⟨a :: b, bs, by simp [listSplitOnP, h, hbs]⟩

theorem listSplitOnP_append_sep (p : α → Bool) (l : List α) (a : α) (h : p a = true) :
    listSplitOnP p (l ++ [a]) = listSplitOnP p l ++ [[]] := by
  induction l with
  | nil => simp [listSplitOnP, h]
  | cons b l ih =>
    by_cases hb : p b
    · simp [listSplitOnP, hb, ih]
    · obtain ⟨c, cs, hcs⟩ := listSplitOnP_exists_cons p l
      have hic : listSplitOnP p (l ++ [a]) = c :: (cs ++ [[]]) := by
        rw [ih, hcs]
        rfl
      simp [listSplitOnP, hb, hic, hcs]

theorem preprocess_text_empty (f : Bool) : preprocess_text (.str "") f = "" := by
  cases f <;> rfl

theorem srt_spec_blocks_cons (f : Bool) (cur : List String) (X : List (List String))
    (h : cur.all keepSrtLine = true) :
    srt_spec_blocks f (cur :: X) = flushSrtBlock f cur ++ srt_spec_blocks f X := by
  have hfix : cur.filter keepSrtLine = cur :=
    List.filter_eq_self.mpr (List.all_eq_true.mp h)
  cases cur with
  | nil =>
    have hi : String.intercalate " " ([] : List String) = "" := rfl
    simp [srt_spec_blocks, flushSrtBlock, List.filterMap_cons, hi, preprocess_text_empty]
  | cons a cs =>
    simp only [srt_spec_blocks, List.filterMap_cons, hfix]
    by_cases hcl :
        preprocess_text (.str (String.intercalate " " (a :: cs))) f = ""
    · simp [flushSrtBlock, hcl]
    · simp [flushSrtBlock, hcl]

theorem srt_spec_blocks_head_congr (f : Bool) (X : List (List String))
    (c1 c2 : List String) (h : c1.filter keepSrtLine = c2.filter keepSrtLine) :
    srt_spec_blocks f (c1 :: X) = srt_spec_blocks f (c2 :: X) := by
  simp only [srt_spec_blocks, List.filterMap_cons, h]

theorem srtProcess_eq_spec (f : Bool) :
    ∀ (ls : List String) (cur : List String), cur.all keepSrtLine = true →
      srtProcess f ls cur =
        srt_spec_blocks f (consHead cur (listSplitOnP (fun l => l == "") (ls.map pyStrip))) := by
  intro ls
  induction ls with
  | nil =>
    intro cur h
    show flushSrtBlock f cur = _
    simp only [List.map_nil, listSplitOnP, consHead, List.append_nil]
    rw [srt_spec_blocks_cons f cur [] h]
    simp [srt_spec_blocks]
  | cons l ls ih =>
    intro cur h
    by_cases h0 : pyStrip l = ""
    · have hps : ((fun x : String => x == "") (pyStrip l)) = true := by simp [h0]
      simp only [srtProcess, if_pos h0, List.map_cons, listSplitOnP, hps, if_pos]
      simp only [consHead, List.append_nil]
      rw [srt_spec_blocks_cons f cur _ h]
      obtain ⟨b, bs, hbs⟩ := listSplitOnP_exists_cons
        (fun x : String => x == "") (ls.map pyStrip)
      rw [ih [] rfl, hbs]
      simp [consHead]
    · have hps : ((fun x : String => x == "") (pyStrip l)) = false := by simp [h0]
      obtain ⟨b, bs, hbs⟩ := listSplitOnP_exists_cons
        (fun x : String => x == "") (ls.map pyStrip)
      have hsplit : listSplitOnP (fun x : String => x == "") ((l :: ls).map pyStrip)
          = (pyStrip l :: b) :: bs := by
        simp only [List.map_cons, listSplitOnP, hps, if_neg, hbs]
        simp
      rw [hsplit]
      by_cases h1 : isIndexLine (pyStrip l)
      · have hkeep : keepSrtLine (pyStrip l) = false := by simp [keepSrtLine, h1]
        simp only [srtProcess, if_neg h0, if_pos h1]
        rw [ih cur h, hbs]
        simp only [consHead]
        exact srt_spec_blocks_head_congr f bs (cur ++ b) (cur ++ pyStrip l :: b)
          (by simp [List.filter_append, List.filter_cons, hkeep])
      · by_cases h2 : isTimestampLine (pyStrip l)
        · have hkeep : keepSrtLine (pyStrip l) = false := by simp [keepSrtLine, h2]
          simp only [srtProcess, if_neg h0, if_neg h1, if_pos h2]
          rw [ih cur h, hbs]
          simp only [consHead]
          exact srt_spec_blocks_head_congr f bs (cur ++ b) (cur ++ pyStrip l :: b)
            (by simp [List.filter_append, List.filter_cons, hkeep])
        · have hkeep : keepSrtLine (pyStrip l) = true := by simp [keepSrtLine, h1, h2]
          have hall : (cur ++ [pyStrip l]).all keepSrtLine = true := by
            simp [List.all_append, h, hkeep]
          simp only [srtProcess, if_neg h0, if_neg h1, if_neg h2]
          rw [ih (cur ++ [pyStrip l]) hall, hbs]
          simp [consHead, List.append_assoc]

theorem pyLines_append_newline (s : String) : pyLines (s ++ "\n") = pyLines s ++ [""] := by
  unfold pyLines
  have hd : (s ++ "\n").data = s.data ++ ['\n'] := rfl
  rw [hd, listSplitOnP_append_sep _ _ _ (by simp)]
  simp

theorem srtProcess_append_blank (f : Bool) :
    ∀ (ls : List String) (cur : List String),
      srtProcess f (ls ++ [""]) cur = srtProcess f ls cur := by
  intro ls
  induction ls with
  | nil =>
    intro cur
    have h0 : pyStrip "" = "" := rfl
    simp [srtProcess, h0, flushSrtBlock]
  | cons l ls ih =>
    intro cur
    simp only [List.cons_append, srtProcess]
    by_cases h0 : pyStrip l = ""
    · simp [h0, ih]
    · by_cases h1 : isIndexLine (pyStrip l)
      · simp [h0, h1, ih]
      · by_cases h2 : isTimestampLine (pyStrip l)
        · simp [h0, h1, h2, ih]
        · simp [h0, h1, h2, ih]

/-- C6: the source SRT parser refines the specification formulation (the
lines, stripped, form blank-line-separated blocks; within each block the
pure-digit index lines and the exact-pattern timestamp lines are
discarded, the remaining lines are joined with single spaces and
normalized, and non-empty results are kept in block order); in particular
the single-block subtitle input parses to exactly the one normalized
utterance. -/
theorem c6_srt_block_parsing :
    (∀ content f, parse_srt_transcript content f = srt_spec content f) ∧
    parse_srt_transcript "1\n00:00:00,000 --> 00:00:02,500\nHello world.\n\n" false
      = ["hello world"] := by
  refine ⟨fun content f => ?_, by decide⟩
  unfold parse_srt_transcript srt_spec
  rw [srtProcess_eq_spec f (pyLines content) [] rfl]
  obtain ⟨b, bs, hbs⟩ := listSplitOnP_exists_cons
    (fun x : String => x == "") ((pyLines content).map pyStrip)
  rw [hbs]
  simp [consHead]

/-- C7: a final block not terminated by a trailing blank line is still
flushed: terminating the input with a newline (which closes the last
block with a blank line) never changes the parse result, and a concrete
unterminated single-block input yields its normalized utterance. -/
theorem c7_trailing_block_flushed :
    (∀ content f, parse_srt_transcript (content ++ "\n") f = parse_srt_transcript content f) ∧
    parse_srt_transcript "1\n00:00:01,000 --> 00:00:02,500\nBye now." false
      = ["bye now"] := by
  refine ⟨fun content f => ?_, by decide⟩
  unfold parse_srt_transcript
  rw [pyLines_append_newline, srtProcess_append_blank]
